import Mathlib

/-!
Verification development for the Cppcheck build-and-packaging pipeline
(`build.py`).  The Python functions are shallowly embedded as executable
Lean definitions: external process invocations become explicit
`ExecResult` parameters, the filesystem becomes an explicit `FS` value,
and Python exceptions (`AssertionError`, `AttributeError`, `NameError`,
`IndexError`, `ValueError`, `FileNotFoundError`, `sys.exit`) become
`Except.error` results.
-/

/-- Result of `exec_command`: captured return code, stdout text and stderr. -/
structure ExecResult where
  returncode : Int
  out : String
  err : String
deriving DecidableEq

/-- Whitespace characters stripped by Python `str.strip()` (ASCII subset). -/
def isPySpace (c : Char) : Bool :=
  c = ' ' || c = '\t' || c = '\n' || c = '\r' || c = '\x0b' || c = '\x0c'

/-- Python `line.strip()` on a character list. -/
def pyStrip (s : List Char) : List Char :=
  ((s.dropWhile isPySpace).reverse.dropWhile isPySpace).reverse

/-- Python `str.split(sep)` for a one-character separator: splits at every
occurrence, keeping empty fields; the empty string yields one empty field. -/
def splitOnChar (sep : Char) : List Char → List (List Char)
  | [] => [[]]
  | c :: rest =>
    if c = sep then [] :: splitOnChar sep rest
    else
      match splitOnChar sep rest with
      | g :: gs => (c :: g) :: gs
      | [] => [[c]]

/-- If `pat` starts the list `s`, return the remainder of `s`. -/
def stripOcc : List Char → List Char → Option (List Char)
  | [], s => some s
  | _ :: _, [] => none
  | p :: ps, c :: cs => if p = c then stripOcc ps cs else none

/-- Python substring test `needle in hay` on character lists. -/
def isInfixChars (needle : List Char) : List Char → Bool
  | [] => (stripOcc needle []).isSome
  | c :: cs => if (stripOcc needle (c :: cs)).isSome then true else isInfixChars needle cs

/-- Python `needle in hay` on strings. -/
def containsSub (hay needle : String) : Bool :=
  isInfixChars needle.data hay.data

/-- Embedding of `posix2win`: `path[1] + ":" + path[2:]`; a path shorter than two
characters makes `path[1]` raise `IndexError`. -/
def posix2win (path : String) : Except String String :=
  match path.data with
  | _ :: c :: rest => .ok (String.mk (c :: ':' :: rest))
  | _ => .error "IndexError: string index out of range"

/-!
Embedding of the compiled pattern
`^.+(?:dll|DLL) => (?P<lib_path>.*) \((?:.*)\)$` with Python
backtracking semantics: the leading `.+` is greedy (the rightmost usable
`dll`/`DLL` before a ` => ` wins), and the `lib_path` group is greedy
(the rightmost ` (` that still leaves a final `)` wins).  The matched
lines come from splitting on newlines, so `.` never meets a newline.
-/

/-- The reversed consumed head ends with `dll` or `DLL` preceded by at
least one character (the mandatory `.+`). -/
def endsWithDll : List Char → Bool
  | 'l' :: 'l' :: 'd' :: _ :: _ => true
  | 'L' :: 'L' :: 'D' :: _ :: _ => true
  | _ => false

/-- Scanning the reversed remainder (final `)` already removed), find the
first `(` immediately preceded (in the original order) by a space; return
the reversed characters before that ` (`. -/
def splitAddrRev : List Char → Option (List Char)
  | '(' :: ' ' :: r => some r
  | _ :: r => splitAddrRev r
  | [] => none

/-- Match ` \((?:.*)\)$` against the tail and return the greedy
`lib_path` group standing before it. -/
def tailMatch (r : List Char) : Option (List Char) :=
  match r.reverse with
  | ')' :: restRev => (splitAddrRev restRev).map List.reverse
  | _ => none

/-- Backtracking search for the split `line = head ++ " => " ++ tail`
with `head` matching `.+(?:dll|DLL)`, trying the longest `head` first;
`pRev` is the reversed consumed head. -/
def matchHead : List Char → List Char → Option (List Char)
  | _, [] => none
  | pRev, c :: rest =>
    match matchHead (c :: pRev) rest with
    | some b => some b
    | none =>
      if endsWithDll pRev then
        match c :: rest with
        | ' ' :: '=' :: '>' :: ' ' :: r => tailMatch r
        | _ => none
      else none

/-- Embedding of `prog.match(line)`: the `lib_path` group of the dependency pattern,
or `none` when the line does not match. -/
def matchLine (s : List Char) : Option (List Char) :=
  matchHead [] s

/-- The per-line loop of `extract_dynamic_libraries`: strip, skip empty
lines, match the pattern (an unmatched line prints a warning and then
crashes on `match.group` — `match` is `None`), convert with `posix2win`,
assert the library file exists, and keep paths containing an allowed
substring. -/
def processLines (host_isfile : String → Bool) (allowed_paths : List String) :
    List (List Char) → Except String (List String)
  | [] => .ok []
  | line :: rest =>
    let l := pyStrip line
    if l.isEmpty then processLines host_isfile allowed_paths rest
    else
      match matchLine l with
      | none => .error "AttributeError: NoneType object has no attribute group"
      | some g =>
        match posix2win (String.mk g) with
        | .error e => .error e
        | .ok lib_path =>
          if host_isfile lib_path then
            match processLines host_isfile allowed_paths rest with
            | .error e => .error e
            | .ok libs =>
              .ok (if allowed_paths.any (fun p => containsSub lib_path p) then
                     lib_path :: libs
                   else libs)
          else .error ("Dynamic library doesnt exit: " ++ lib_path)

/-- Embedding of `extract_dynamic_libraries(binary_path, allowed_paths)`:
`binary_is_file` stands for `os.path.isfile(binary_path)`, `res` for the
captured `ldd` invocation, `host_isfile` for `os.path.isfile` on
reported library paths. -/
def extract_dynamic_libraries (binary_is_file : Bool) (res : ExecResult)
    (host_isfile : String → Bool) (allowed_paths : List String) :
    Except String (List String) :=
  if binary_is_file then
    if res.returncode = 0 then
      processLines host_isfile allowed_paths (splitOnChar '\n' res.out.data)
    else .ok []
  else .error "binary is not found"

/-- The successfully processed lines among `lines`, in encounter order:
strip, drop empty lines, keep the `lib_path` group of matching lines
converted by `posix2win`. -/
def matchedOfLines (lines : List (List Char)) : List String :=
  lines.filterMap (fun line =>
    let l := pyStrip line
    if l.isEmpty then none
    else (matchLine l).bind (fun g => (posix2win (String.mk g)).toOption))

/-- The successfully processed lines of the linker output, in encounter
order.  This is the content of the loop in `extract_dynamic_libraries`
before the allow-list filter. -/
def matchedLibPaths (out : String) : List String :=
  matchedOfLines (splitOnChar '\n' out.data)

/-- Embedding of `normalize_binary`: append `.exe` on the Windows platform family. -/
def normalize_binary (is_windows : Bool) (binary_name : String) : String :=
  if is_windows then binary_name ++ ".exe" else binary_name

/-- The installation tree: paths (component lists relative to the tree
root) of the files and of the directories it holds. -/
structure FS where
  files : List (List String)
  dirs : List (List String)
deriving DecidableEq

/-- Embedding of `os.path.basename` under `ntpath`: everything after the last `/` or
backslash. -/
def basenameWin (s : List Char) : List Char :=
  s.foldl (fun acc c => if c = '/' || c = '\\' then [] else acc ++ [c]) []

/-- Embedding of `copy_msys_lib_deps(binary_path, allowed_paths)`: extract the
dynamic libraries of the binary (sitting at the tree root) and copy each
next to it, i.e. create a root-level file named by its basename. -/
def copy_msys_lib_deps (binary_name : String) (host_isfile : String → Bool)
    (lddRes : ExecResult) (fs : FS) : Except String FS :=
  match extract_dynamic_libraries (decide ([binary_name] ∈ fs.files)) lddRes
      host_isfile ["msys64"] with
  | .error e => .error e
  | .ok libs =>
    .ok { fs with files := libs.map (fun l => [String.mk (basenameWin l.data)]) ++ fs.files }

/-- Embedding of `prepare_package(install_dir)`: assert the tree is non-empty, assert
the binary sits in `bin/`, move it to the root, `shutil.rmtree` the
`bin` directory (`FileNotFoundError` when absent, since
`ignore_errors=False`), copy the first readme from the working directory
if any, and on the Windows family bundle the MSYS dynamic libraries. -/
def prepare_package (is_windows : Bool) (cwdFiles : List String)
    (host_isfile : String → Bool) (lddRes : ExecResult) (fs : FS) :
    Except String FS :=
  if fs.files = [] ∧ fs.dirs = [] then
    .error "Error: folder with package cannot be empty!"
  else
    let binary_name := normalize_binary is_windows "cppcheck"
    if ["bin", binary_name] ∈ fs.files then
      let fs1 : FS :=
        { fs with files := [binary_name] :: fs.files.filter (fun p => p ≠ ["bin", binary_name]) }
      if ["bin"] ∈ fs1.dirs then
        let fs2 : FS :=
          { files := fs1.files.filter (fun p => p.head? ≠ some "bin"),
            dirs := fs1.dirs.filter (fun p => p.head? ≠ some "bin") }
        let fs3 : FS :=
          match cwdFiles.find? (fun f => f.toLower = "readme.md" || f.toLower = "readme.txt") with
          | some f => { fs2 with files := [f.toLower] :: fs2.files }
          | none => fs2
        if is_windows then copy_msys_lib_deps binary_name host_isfile lddRes fs3
        else .ok fs3
      else .error "FileNotFoundError: bin"
    else .error "Missing cppcheck binary in the installed directory"

/-- Embedding of `validate_package(install_dir)`: binary at the root, the three
auxiliary directories, the manifest file, and a successful
`cppcheck --version` run (`verRes`). -/
def validate_package (is_windows : Bool) (fs : FS) (verRes : ExecResult) :
    Except String Unit :=
  if [normalize_binary is_windows "cppcheck"] ∉ fs.files then
    .error "Missing cppcheck binary in the package folder:"
  else if ["addons"] ∉ fs.dirs then .error "addons folder is missing!"
  else if ["cfg"] ∉ fs.dirs then .error "cfg folder is missing!"
  else if ["platforms"] ∉ fs.dirs then .error "platforms folder is missing!"
  else if ["package.json"] ∉ fs.files then .error "Missing PlatformIO manifest file"
  else if verRes.returncode ≠ 0 then .error "Failed to validate final viable binary"
  else .ok ()

/-- The fixed-shape PlatformIO manifest record. -/
structure PackageManifest where
  name : String
  version : String
  description : String
  keywords : List String
  homepage : String
  license : String
  system : List String
  repository_type : String
  repository_url : String
deriving DecidableEq

/-- Embedding of `get_package_manifeset_data(version, system)`: two truthiness
assertions, then the literal record. -/
def get_package_manifeset_data (version : String) (system : List String) :
    Except String PackageManifest :=
  if version = "" then .error "Version value cannot be empty"
  else if system = [] then .error "Version value cannot be empty"
  else
    .ok
      { name := "tool-cppcheck",
        version := version,
        description := "Static code analysis tool for the C and C++ programming languages",
        keywords := ["static analysis", "tools"],
        homepage := "http://cppcheck.sourceforge.net",
        license := "GPL-3.0-or-later",
        system := system,
        repository_type := "git",
        repository_url := "https://github.com/danmar/cppcheck" }

/-- Embedding of `generate_pio_manifest(result_dir, version, system)`: build the
manifest data and write it as `package.json` at the tree root. -/
def generate_pio_manifest (fs : FS) (version : String) (system : List String) :
    Except String FS :=
  match get_package_manifeset_data version system with
  | .error e => .error e
  | .ok _ => .ok { fs with files := ["package.json"] :: fs.files }

/-- Embedding of `create_pio_package(package_dir, result_dir)`: assert the package
directory exists, run `pio package pack`; `pioWritten` are the files the
external registry client writes into the result directory. -/
def create_pio_package (package_dir_isdir : Bool) (pioRes : ExecResult)
    (pioWritten : List String) (resultFiles : List String) :
    Except String (List String) :=
  if package_dir_isdir then
    if pioRes.returncode = 0 then .ok (pioWritten ++ resultFiles)
    else .error "Failed to create a PlatformIO package!"
  else .error "Package folder missing"

/-- Outcome of a pipeline run: the installation tree and the result
directory listing, either on success or at the moment a fatal
assertion / failed command killed the process. -/
inductive PipeResult where
  | ok : FS → List String → PipeResult
  | fatal : String → FS → List String → PipeResult
deriving DecidableEq

/-- The packaging tail of `main()` (after `install_cppcheck`): generate
the manifest, validate the package, create the PlatformIO package, and
assert that the expected archive name appeared in the result
directory. -/
def main_packaging (is_windows : Bool) (version : String) (systems : List String)
    (verRes pioRes : ExecResult) (pioWritten : List String)
    (fs : FS) (resultFiles : List String) : PipeResult :=
  match generate_pio_manifest fs version systems with
  | .error e => .fatal e fs resultFiles
  | .ok fs1 =>
    match validate_package is_windows fs1 verRes with
    | .error e => .fatal e fs1 resultFiles
    | .ok _ =>
      match create_pio_package true pioRes pioWritten resultFiles with
      | .error e => .fatal e fs1 resultFiles
      | .ok resultFiles2 =>
        match systems with
        | [] => .fatal "IndexError: list index out of range" fs1 resultFiles2
        | s0 :: _ =>
          if ("tool-cppcheck-" ++ s0 ++ "-" ++ version ++ ".tar.gz") ∈ resultFiles2 then
            .ok fs1 resultFiles2
          else .fatal "The final PlatformIO package is missing!" fs1 resultFiles2

/-- Embedding of `get_target_systems()`: `host`/`machine` stand for
`platform.system()`/`platform.machine()`, `envVal` for
`os.environ.get("PLATFORMIO_PACKAGE_SYSTEM_VALUES", "")`. -/
def get_target_systems (host machine envVal : String) : List String :=
  if envVal = "" then [host.toLower ++ "_" ++ machine.toLower]
  else
    (splitOnChar ',' envVal.data).map
      (fun v => String.mk ((pyStrip v).filter (fun c => decide (c ≠ '"'))))

/-- The accumulation steps of `convert_version_to_pio_compatible`:
start from the major field and append minor and patch, each preceded by
a `"0"` when shorter than two characters. -/
def packFields (major minor patch : List Char) : List Char :=
  let v := major
  let v := if minor.length < 2 then v ++ '0' :: minor else v ++ minor
  if patch.length < 2 then v ++ '0' :: patch else v ++ patch

/-- Embedding of `convert_version_to_pio_compatible(version)`: remove every `v`
(Python `str.replace`), append `.0` when exactly one dot remains, then
unpack into exactly three fields (`ValueError` otherwise) and pad minor
and patch on the left to two digits. -/
def convert_version_to_pio_compatible (version : String) : Except String String :=
  let chars := version.data.filter (fun c => decide (c ≠ 'v'))
  let chars := if chars.count '.' = 1 then chars ++ ['.', '0'] else chars
  match splitOnChar '.' chars with
  | [major, minor, patch] =>
    .ok (String.mk (('1' :: '.' :: packFields major minor patch) ++ ['.', '0']))
  | _ => .error "ValueError: not enough values to unpack"

/-- Python `str.replace(pat, "")` for a non-empty pattern `p :: ps`,
removing the occurrences left to right, non-overlapping; the fuel is the
input length, enough for every step to consume at least one character. -/
def removeAllAux (p : Char) (ps : List Char) : Nat → List Char → List Char
  | 0, s => s
  | _ + 1, [] => []
  | n + 1, c :: cs =>
    match stripOcc (p :: ps) (c :: cs) with
    | some rest => removeAllAux p ps n rest
    | none => c :: removeAllAux p ps n cs

/-- Python `s.replace(pat, "")` for a non-empty pattern. -/
def removeAll (p : Char) (ps : List Char) (s : List Char) : List Char :=
  removeAllAux p ps s.length s

/-- Embedding of `extract_version_from_git_env()`: `github_ref` stands for
`os.environ.get("GITHUB_REF", "")` and `gitRes` for the captured
`git describe --tags` invocation.  When `GITHUB_REF` is set but the
remainder after removing `refs/tags/` is empty, the final
`print(str(res["err"]))` reads the local `res`, which was never
assigned on that path: a `NameError`. -/
def extract_version_from_git_env (github_ref : String) (gitRes : ExecResult) :
    Except String String :=
  if github_ref ≠ "" then
    let original_version := String.mk (removeAll 'r' "efs/tags/".data github_ref.data)
    if original_version ≠ "" then .ok original_version
    else .error "NameError: name res is not defined"
  else
    if gitRes.returncode = 0 then .ok gitRes.out.trim
    else .ok "1.0.0"


/-- Left-pad a minor or patch field to two digits, as the conversion
does with its `version + "0" + field` steps. -/
def pad2 (s : List Char) : List Char :=
  if s.length < 2 then '0' :: s else s

/-! ### Helper lemmas -/

theorem splitOnChar_ne_nil (sep : Char) : ∀ s, splitOnChar sep s ≠ []
  | [] => by simp [splitOnChar]
  | c :: rest => by
    rw [splitOnChar]
    split
    · simp
    · split <;> simp

theorem splitOnChar_of_not_mem (sep : Char) (xs : List Char) (h : sep ∉ xs) :
    splitOnChar sep xs = [xs] := by
  induction xs with
  | nil => rfl
  | cons c rest ih =>
    have hc : ¬ c = sep := by
      intro e; exact h (by rw [← e]; exact List.mem_cons_self c rest)
    rw [splitOnChar, if_neg hc, ih (fun hm => h (List.mem_cons_of_mem _ hm))]

theorem splitOnChar_append (sep : Char) (xs ys : List Char) (h : sep ∉ xs) :
    splitOnChar sep (xs ++ sep :: ys) = xs :: splitOnChar sep ys := by
  induction xs with
  | nil => simp [splitOnChar]
  | cons c rest ih =>
    have hc : ¬ c = sep := by
      intro e; exact h (by rw [← e]; exact List.mem_cons_self c rest)
    rw [List.cons_append, splitOnChar, if_neg hc,
      ih (fun hm => h (List.mem_cons_of_mem _ hm))]

theorem filter_no_v (l : List Char) (h : 'v' ∉ l) :
    l.filter (fun c => decide (c ≠ 'v')) = l := by
  induction l with
  | nil => rfl
  | cons c rest ih =>
    have hc : decide (c ≠ 'v') = true := by
      simp only [decide_eq_true_eq]
      intro e; exact h (by rw [← e]; exact List.mem_cons_self c rest)
    rw [List.filter_cons, if_pos hc, ih (fun hm => h (List.mem_cons_of_mem _ hm))]

theorem data_mk (l : List Char) : (String.mk l).data = l := rfl

theorem packFields_eq (M N P : List Char) :
    packFields M N P = M ++ (pad2 N ++ pad2 P) := by
  simp only [packFields, pad2]
  split <;> split <;> simp

/-! ### C1 -/

/-- Claim C1 as stated is false: the conversion keeps the major field,
so the input `"1.2.3"` yields `"1.10203.0"`, not `"1.0203.0"`. -/
theorem c1_counterexample :
    convert_version_to_pio_compatible "1.2.3" ≠ Except.ok "1.0203.0" := by
  intro h
  rw [show convert_version_to_pio_compatible "1.2.3" = Except.ok "1.10203.0" from rfl] at h
  exact absurd (Except.ok.inj h) (by decide)

/-- Claim C1 (amended): the input `"1.2.3"` yields `"1.10203.0"` and the
input `"v2.1"` yields `"1.20100.0"`; in general a two-field version
gains an implicit `".0"` patch field, minor and patch are each
left-padded to two digits, and the result is
`"1." + major + minor + patch + ".0"`. -/
theorem c1_registry_version_scheme :
    convert_version_to_pio_compatible "1.2.3" = .ok "1.10203.0"
    ∧ convert_version_to_pio_compatible "v2.1" = .ok "1.20100.0"
    ∧ (∀ M N P : List Char,
        'v' ∉ M → 'v' ∉ N → 'v' ∉ P → '.' ∉ M → '.' ∉ N → '.' ∉ P →
        convert_version_to_pio_compatible (String.mk (M ++ '.' :: (N ++ '.' :: P)))
          = .ok (String.mk (('1' :: '.' :: (M ++ (pad2 N ++ pad2 P))) ++ ['.', '0'])))
    ∧ (∀ M N : List Char,
        'v' ∉ M → 'v' ∉ N → '.' ∉ M → '.' ∉ N →
        convert_version_to_pio_compatible (String.mk (M ++ '.' :: N))
          = .ok (String.mk (('1' :: '.' :: (M ++ (pad2 N ++ pad2 ['0']))) ++ ['.', '0']))) := by
  refine ⟨rfl, rfl, ?_, ?_⟩
  · intro M N P hvM hvN hvP hM hN hP
    have hv3 : 'v' ∉ M ++ '.' :: (N ++ '.' :: P) := by
      intro h
      rcases List.mem_append.mp h with h | h
      · exact hvM h
      rcases List.mem_cons.mp h with h | h
      · exact absurd h (by decide)
      rcases List.mem_append.mp h with h | h
      · exact hvN h
      rcases List.mem_cons.mp h with h | h
      · exact absurd h (by decide)
      · exact hvP h
    have hcount : (M ++ '.' :: (N ++ '.' :: P)).count '.' = 2 := by
      simp [List.count_append, List.count_cons, List.count_eq_zero.mpr hM,
        List.count_eq_zero.mpr hN, List.count_eq_zero.mpr hP]
    simp only [convert_version_to_pio_compatible, data_mk]
    rw [filter_no_v _ hv3, if_neg (by rw [hcount]; decide),
      splitOnChar_append '.' M _ hM, splitOnChar_append '.' N _ hN,
      splitOnChar_of_not_mem '.' P hP]
    show Except.ok (String.mk (('1' :: '.' :: packFields M N P) ++ ['.', '0'])) = _
    rw [packFields_eq]
  · intro M N hvM hvN hM hN
    have hv2 : 'v' ∉ M ++ '.' :: N := by
      intro h
      rcases List.mem_append.mp h with h | h
      · exact hvM h
      rcases List.mem_cons.mp h with h | h
      · exact absurd h (by decide)
      · exact hvN h
    have hcount : (M ++ '.' :: N).count '.' = 1 := by
      simp [List.count_append, List.count_cons, List.count_eq_zero.mpr hM,
        List.count_eq_zero.mpr hN]
    simp only [convert_version_to_pio_compatible, data_mk]
    rw [filter_no_v _ hv2, if_pos (by rw [hcount]),
      show (M ++ '.' :: N) ++ ['.', '0'] = M ++ '.' :: (N ++ '.' :: ['0']) by simp,
      splitOnChar_append '.' M _ hM, splitOnChar_append '.' N _ hN,
      splitOnChar_of_not_mem '.' ['0'] (by decide)]
    show Except.ok (String.mk (('1' :: '.' :: packFields M N ['0']) ++ ['.', '0'])) = _
    rw [packFields_eq]

/-- Witness for the amended C1 theorem at a concrete three-field input. -/
theorem c1_registry_version_scheme_witness :
    convert_version_to_pio_compatible (String.mk (['1', '2'] ++ '.' :: (['3', '4'] ++ '.' :: ['5'])))
      = .ok (String.mk (('1' :: '.' :: (['1', '2'] ++ (pad2 ['3', '4'] ++ pad2 ['5']))) ++ ['.', '0'])) :=
  c1_registry_version_scheme.2.2.1 ['1', '2'] ['3', '4'] ['5']
    (by decide) (by decide) (by decide) (by decide) (by decide) (by decide)

/-! ### C2 -/

/-- Claim C2 is contradicted by the code: on a non-empty linker output
line that does not match the dependency pattern, the loop prints its
warning but then still calls `match.group("lib_path")` on `None` (there
is no `continue`), raising `AttributeError` instead of processing the
remaining lines.  Here `ldd` succeeded and printed a single unmatched
line. -/
theorem c2_unmatched_line_raises :
    extract_dynamic_libraries true ⟨0, "\tlinux-vdso.so.1 (0x00007ffc9a3d4000)\n", ""⟩
        (fun _ => true) ["msys64"]
      = .error "AttributeError: NoneType object has no attribute group" := rfl

/-! ### C4 -/

/-- Claim C4: when the `ldd` invocation against an existing binary exits
with a non-zero return code, `extract_dynamic_libraries` returns the
empty sequence instead of raising. -/
theorem c4_ldd_failure_yields_empty (res : ExecResult) (host_isfile : String → Bool)
    (allowed_paths : List String) (h : res.returncode ≠ 0) :
    extract_dynamic_libraries true res host_isfile allowed_paths = .ok [] := by
  simp [extract_dynamic_libraries, h]

/-- Witness for C4 at a concrete failed linker invocation. -/
theorem c4_ldd_failure_yields_empty_witness :
    extract_dynamic_libraries true ⟨1, "ldd: not a dynamic executable", ""⟩
        (fun _ => false) ["msys64"] = .ok [] :=
  c4_ldd_failure_yields_empty ⟨1, "ldd: not a dynamic executable", ""⟩
    (fun _ => false) ["msys64"] (by decide)

/-! ### C5 -/

/-- Claim C5 is contradicted by the code on one of its cases: with
`GITHUB_REF = "refs/tags/"` the stripped remainder is empty, and the
fall-through `print(str(res["err"]))` reads the never-assigned local
`res`, raising `NameError` instead of returning `"1.0.0"`.  The other
fall-back case (no `GITHUB_REF`, failing `git describe --tags`) does
return `"1.0.0"`. -/
theorem c5_default_version_paths :
    extract_version_from_git_env "refs/tags/" ⟨0, "v2.13.0", ""⟩
        = .error "NameError: name res is not defined"
    ∧ extract_version_from_git_env "" ⟨128, "", "fatal: no names found"⟩ = .ok "1.0.0" :=
  ⟨rfl, rfl⟩

/-! ### C7 -/

/-- Claim C7 as stated is false: the conversion neither upper-cases the
drive letter nor turns the separators into backslashes; `/c/...` becomes
`c:/...`, not `C:\...`. -/
theorem c7_counterexample :
    posix2win "/c/msys64/bin/x.dll" = .ok "c:/msys64/bin/x.dll"
    ∧ ("c:/msys64/bin/x.dll" : String) ≠ "C:\\msys64\\bin\\x.dll" :=
  ⟨rfl, by decide⟩

/-- Claim C7 (amended): for a POSIX-style drive path `/X...`, the result
splices the drive-letter character with `":"` and the unchanged
remainder of the path: `/c/foo` becomes `c:/foo`, with the letter case
and the forward slashes preserved. -/
theorem c7_posix2win_splices_drive (d : Char) (rest : List Char) :
    posix2win (String.mk ('/' :: d :: rest)) = .ok (String.mk (d :: ':' :: rest)) := rfl

/-! ### C9 -/

/-- Claim C9: `get_target_systems` always returns a non-empty list —
the one-element host default when the override variable is unset, and
the comma-split cleaned override otherwise (a split always has at least
one field), so indexing its first element is well-defined. -/
theorem c9_target_systems_nonempty (host machine envVal : String) :
    ∃ s0 rest, get_target_systems host machine envVal = s0 :: rest := by
  unfold get_target_systems
  split
  · exact ⟨_, _, rfl⟩
  · rcases hs : splitOnChar ',' envVal.data with _ | ⟨g, gs⟩
    · exact absurd hs (splitOnChar_ne_nil ',' envVal.data)
    · exact ⟨_, _, rfl⟩

/-! ### C10 -/

/-- Claim C10: manifest generation is guarded by fatal assertions on its
inputs — it fails whenever the version string or the target system list
is empty, and a manifest file is written only for a non-empty version
and a non-empty system list. -/
theorem c10_manifest_requires_nonempty (fs : FS) (version : String) (system : List String) :
    ((version = "" ∨ system = []) →
      ∃ msg, generate_pio_manifest fs version system = .error msg)
    ∧ (∀ fs', generate_pio_manifest fs version system = .ok fs' →
        version ≠ "" ∧ system ≠ [] ∧ ["package.json"] ∈ fs'.files) := by
  constructor
  · rintro (h | h) <;>
      simp [generate_pio_manifest, get_package_manifeset_data, h]
  · intro fs' h
    unfold generate_pio_manifest get_package_manifeset_data at h
    by_cases hv : version = ""
    · simp [hv] at h
    · by_cases hs : system = []
      · simp [hv, hs] at h
      · refine ⟨hv, hs, ?_⟩
        simp [hv, hs] at h
        rw [← h]
        exact List.mem_cons_self _ _

/-- Witness for C10: an empty version makes manifest generation fail. -/
theorem c10_manifest_requires_nonempty_witness :
    ∃ msg, generate_pio_manifest ⟨[], []⟩ "" ["linux_x86_64"] = .error msg :=
  (c10_manifest_requires_nonempty ⟨[], []⟩ "" ["linux_x86_64"]).1 (Or.inl rfl)

/-! ### C3 -/

theorem matchedOfLines_cons_empty (line : List Char) (rest : List (List Char))
    (he : (pyStrip line).isEmpty = true) :
    matchedOfLines (line :: rest) = matchedOfLines rest := by
  rw [matchedOfLines, matchedOfLines, List.filterMap_cons]
  dsimp only []
  rw [if_pos he]

theorem matchedOfLines_cons_some (line : List Char) (rest : List (List Char)) (lp : String)
    (he : ¬ (pyStrip line).isEmpty = true)
    (hsome : (matchLine (pyStrip line)).bind (fun g => (posix2win (String.mk g)).toOption)
      = some lp) :
    matchedOfLines (line :: rest) = lp :: matchedOfLines rest := by
  rw [matchedOfLines, matchedOfLines, List.filterMap_cons]
  dsimp only []
  rw [if_neg he, hsome]

theorem processLines_ok (host_isfile : String → Bool) (allowed_paths : List String) :
    ∀ (lines : List (List Char)) (libs : List String),
      processLines host_isfile allowed_paths lines = .ok libs →
      libs = (matchedOfLines lines).filter
        (fun lp => allowed_paths.any (fun p => containsSub lp p))
  | [], libs, h => by
    simp only [processLines] at h
    cases h
    rfl
  | line :: rest, libs, h => by
    simp only [processLines] at h
    by_cases he : (pyStrip line).isEmpty = true
    · rw [if_pos he] at h
      have ih := processLines_ok host_isfile allowed_paths rest libs h
      rw [ih, matchedOfLines_cons_empty line rest he]
    · rw [if_neg he] at h
      cases hm : matchLine (pyStrip line) with
      | none => rw [hm] at h; dsimp only [] at h; simp at h
      | some g =>
        rw [hm] at h
        dsimp only [] at h
        cases hp : posix2win (String.mk g) with
        | error e => rw [hp] at h; dsimp only [] at h; simp at h
        | ok lib_path =>
          rw [hp] at h
          dsimp only [] at h
          by_cases hf : host_isfile lib_path = true
          · rw [if_pos hf] at h
            cases hrest : processLines host_isfile allowed_paths rest with
            | error e => rw [hrest] at h; dsimp only [] at h; simp at h
            | ok libs2 =>
              rw [hrest] at h
              dsimp only [] at h
              have ih := processLines_ok host_isfile allowed_paths rest libs2 hrest
              have hlibs := (Except.ok.inj h).symm
              have hcons : matchedOfLines (line :: rest) = lib_path :: matchedOfLines rest :=
                matchedOfLines_cons_some line rest lib_path he
                  (by rw [hm]; simp [hp, Except.toOption])
              rw [hlibs, ih, hcons, List.filter_cons]
          · rw [if_neg hf] at h; simp at h

/-- Claim C3: whenever `extract_dynamic_libraries` returns a sequence,
that sequence is exactly the allow-list filtering of the successfully
parsed linker-output paths in first-encountered order — so it contains
only paths with at least one allow-listed substring, preserves the
linker output order, and introduces no de-duplication (and a failed
linker invocation yields the empty sequence). -/
theorem c3_allowlist_filter (binary_is_file : Bool) (res : ExecResult)
    (host_isfile : String → Bool) (allowed_paths : List String)
    (hne : allowed_paths ≠ []) (libs : List String)
    (hok : extract_dynamic_libraries binary_is_file res host_isfile allowed_paths = .ok libs) :
    (res.returncode = 0 →
      libs = (matchedLibPaths res.out).filter
        (fun lp => allowed_paths.any (fun p => containsSub lp p)))
    ∧ (res.returncode ≠ 0 → libs = [])
    ∧ ∀ lp ∈ libs, ∃ p ∈ allowed_paths, containsSub lp p = true := by
  unfold extract_dynamic_libraries at hok
  by_cases hb : binary_is_file = true
  · rw [if_pos hb] at hok
    by_cases hrc : res.returncode = 0
    · rw [if_pos hrc] at hok
      have heq := processLines_ok host_isfile allowed_paths _ _ hok
      rw [show matchedOfLines (splitOnChar '\n' res.out.data) = matchedLibPaths res.out
        from rfl] at heq
      refine ⟨fun _ => heq, fun h => absurd hrc h, ?_⟩
      intro lp hlp
      rw [heq] at hlp
      obtain ⟨_, hpred⟩ := List.mem_filter.mp hlp
      obtain ⟨p, hp, hc⟩ := List.any_eq_true.mp hpred
      exact ⟨p, hp, hc⟩
    · rw [if_neg hrc] at hok
      have : libs = [] := (Except.ok.inj hok).symm
      subst this
      exact ⟨fun h => absurd h hrc, fun _ => rfl, by simp⟩
  · rw [if_neg hb] at hok
    simp at hok

/-- Witness for C3 at a concrete successful extraction of one library. -/
theorem c3_allowlist_filter_witness :
    ["c:/msys64/usr/bin/msys-2.0.dll"]
      = (matchedLibPaths "\tmsys-2.0.dll => /c/msys64/usr/bin/msys-2.0.dll (0x180040000)\n").filter
          (fun lp => (["msys64"] : List String).any (fun p => containsSub lp p)) :=
  (c3_allowlist_filter true
    ⟨0, "\tmsys-2.0.dll => /c/msys64/usr/bin/msys-2.0.dll (0x180040000)\n", ""⟩
    (fun _ => true) ["msys64"] (by decide)
    ["c:/msys64/usr/bin/msys-2.0.dll"] rfl).1 rfl

/-! ### C6 -/

theorem prepare_package_missing_binary (is_windows : Bool) (cwdFiles : List String)
    (host_isfile : String → Bool) (lddRes : ExecResult) (g : FS)
    (hne : g.files ≠ [])
    (hmiss : ["bin", normalize_binary is_windows "cppcheck"] ∉ g.files) :
    prepare_package is_windows cwdFiles host_isfile lddRes g
      = .error "Missing cppcheck binary in the installed directory" := by
  simp only [prepare_package]
  rw [if_neg (fun hc => hne hc.1), if_neg hmiss]

/-- Claim C6: for an installation tree holding the main binary under
`bin`, a successful `prepare_package` leaves the binary at the tree root
and no `bin` directory, and a second application to the resulting tree
fails fast on the binary-in-`bin` assertion instead of succeeding. -/
theorem c6_prepare_package_idempotence_guard (is_windows : Bool) (cwdFiles : List String)
    (host_isfile : String → Bool) (lddRes : ExecResult) (fs fs' : FS)
    (hbin : ["bin", normalize_binary is_windows "cppcheck"] ∈ fs.files)
    (hok : prepare_package is_windows cwdFiles host_isfile lddRes fs = .ok fs') :
    [normalize_binary is_windows "cppcheck"] ∈ fs'.files
    ∧ ["bin"] ∉ fs'.dirs
    ∧ prepare_package is_windows cwdFiles host_isfile lddRes fs'
        = .error "Missing cppcheck binary in the installed directory" := by
  have hnb : ¬ normalize_binary is_windows "cppcheck" = "bin" := by
    cases is_windows <;> decide
  simp only [prepare_package, copy_msys_lib_deps] at hok
  repeat' split at hok
  all_goals try exact (Except.noConfusion hok)
  all_goals
    have hX := (Except.ok.inj hok).symm
    have hroot : [normalize_binary is_windows "cppcheck"] ∈ fs'.files := by
      rw [hX]; simp [List.mem_filter, hnb]
    have hdirs : ["bin"] ∉ fs'.dirs := by
      rw [hX]; simp [List.mem_filter]
    have hmiss : ["bin", normalize_binary is_windows "cppcheck"] ∉ fs'.files := by
      rw [hX]; simp [List.mem_filter, List.mem_map]
    exact ⟨hroot, hdirs, prepare_package_missing_binary _ _ _ _ _
      (List.ne_nil_of_mem hroot) hmiss⟩

/-- Witness for C6 at a concrete one-binary installation tree. -/
theorem c6_prepare_package_idempotence_guard_witness :
    [normalize_binary false "cppcheck"] ∈ (FS.mk [["cppcheck"]] []).files
    ∧ ["bin"] ∉ (FS.mk [["cppcheck"]] []).dirs
    ∧ prepare_package false [] (fun _ => true) ⟨0, "", ""⟩ (FS.mk [["cppcheck"]] [])
        = .error "Missing cppcheck binary in the installed directory" :=
  c6_prepare_package_idempotence_guard false [] (fun _ => true) ⟨0, "", ""⟩
    (FS.mk [["bin", "cppcheck"]] [["bin"]]) (FS.mk [["cppcheck"]] [])
    (by decide) rfl

/-! ### C8 -/

/-- Claim C8: when the installation tree has no `addons` directory, the
packaging tail of `main` dies with a fatal message coming from
`validate_package`, before `create_pio_package` runs, and the result
directory listing is exactly what it was — no archive is produced. -/
theorem c8_missing_addons_aborts_before_archiver (is_windows : Bool)
    (version : String) (systems : List String) (verRes pioRes : ExecResult)
    (pioWritten resultFiles : List String) (fs : FS)
    (hv : version ≠ "") (hs : systems ≠ [])
    (haddons : ["addons"] ∉ fs.dirs) :
    ∃ msg,
      main_packaging is_windows version systems verRes pioRes pioWritten fs resultFiles
        = .fatal msg { fs with files := ["package.json"] :: fs.files } resultFiles
      ∧ validate_package is_windows { fs with files := ["package.json"] :: fs.files } verRes
        = .error msg := by
  have hgen : generate_pio_manifest fs version systems
      = .ok { fs with files := ["package.json"] :: fs.files } := by
    simp [generate_pio_manifest, get_package_manifeset_data, hv, hs]
  have hval : ∃ msg,
      validate_package is_windows { fs with files := ["package.json"] :: fs.files } verRes
        = .error msg := by
    unfold validate_package
    dsimp only []
    by_cases hb :
        [normalize_binary is_windows "cppcheck"] ∈ ["package.json"] :: fs.files
    · rw [if_neg (fun hc => hc hb), if_pos haddons]
      exact ⟨_, rfl⟩
    · rw [if_pos hb]
      exact ⟨_, rfl⟩
  obtain ⟨msg, hmsg⟩ := hval
  refine ⟨msg, ?_, hmsg⟩
  rw [main_packaging, hgen]
  dsimp only []
  rw [hmsg]

/-- Witness for C8 at a concrete manifest-only tree with no `addons`. -/
theorem c8_missing_addons_aborts_before_archiver_witness :
    ∃ msg,
      main_packaging false "1.0500.0" ["linux_x86_64"] ⟨0, "", ""⟩ ⟨0, "", ""⟩
          [] (FS.mk [["cppcheck"]] []) []
        = .fatal msg { FS.mk [["cppcheck"]] [] with
            files := ["package.json"] :: (FS.mk [["cppcheck"]] []).files } []
      ∧ validate_package false { FS.mk [["cppcheck"]] [] with
            files := ["package.json"] :: (FS.mk [["cppcheck"]] []).files } ⟨0, "", ""⟩
        = .error msg :=
  c8_missing_addons_aborts_before_archiver false "1.0500.0" ["linux_x86_64"]
    ⟨0, "", ""⟩ ⟨0, "", ""⟩ [] [] (FS.mk [["cppcheck"]] [])
    (by decide) (by decide) (by decide)
